import Mathlib

/-!
Shallow embedding of a social-network data-access layer
(`app/models/database.py`, `app/services/user_service.py`,
`app/services/post_service.py`, `app/services/message_service.py`).

The relational store is a `DB` structure holding one list of rows per
table, in insertion order (SQLite rowid order).  `query(...).first()`
becomes `List.find?`, `filter` becomes `List.filter`, `count` becomes
`List.length` of a filter, `ORDER BY` becomes `List.insertionSort` (a
stable sort, as SQLite delivers for these simple queries), `offset`/
`limit` become `List.drop`/`List.take`.  Auto-increment primary keys are
modelled by explicit `next_*_id` counters and the wall clock used for
`created_at` defaults by a `now` field.  A Python `None` dereference
(an uncaught `AttributeError`) is modelled by an outer `Option` result:
`none` means the service call raises instead of returning.
-/

namespace SocialApp

/-- Row of the `users` table (`database.py`, class `User`). -/
structure User where
  id : Nat
  email : String
  username : String
  hashed_password : String
  full_name : String
  headline : Option String
  bio : Option String
  profile_image : Option String
  location : Option String
  created_at : Nat
deriving DecidableEq, Repr

/-- Row of the `connection_requests` table (`database.py`, class `ConnectionRequest`).
The status string is one of "pending", "accepted", "rejected". -/
structure ConnectionRequest where
  id : Nat
  sender_id : Nat
  receiver_id : Nat
  status : String
  created_at : Nat
deriving DecidableEq, Repr

/-- Row of the `posts` table (`database.py`, class `Post`). -/
structure Post where
  id : Nat
  author_id : Nat
  content : String
  image_url : Option String
  created_at : Nat
deriving DecidableEq, Repr

/-- Row of the `likes` table (`database.py`, class `Like`). -/
structure Like where
  id : Nat
  post_id : Nat
  user_id : Nat
  created_at : Nat
deriving DecidableEq, Repr

/-- Row of the `messages` table (`database.py`, class `Message`). -/
structure Message where
  id : Nat
  sender_id : Nat
  receiver_id : Nat
  content : String
  read : Bool
  created_at : Nat
deriving DecidableEq, Repr

/-- The relational store: one list of rows per table, in insertion order.
`connections` is the association table with rows `(user_id, connection_id)`. -/
structure DB where
  users : List User
  connections : List (Nat × Nat)
  requests : List ConnectionRequest
  posts : List Post
  likes : List Like
  messages : List Message
  next_user_id : Nat
  next_request_id : Nat
  next_like_id : Nat
  next_message_id : Nat
  now : Nat
deriving DecidableEq, Repr

/-- Ascending order on message creation time (`ORDER BY created_at ASC`). -/
def msgAsc (a b : Message) : Prop := a.created_at ≤ b.created_at

instance : DecidableRel msgAsc := fun _ _ => Nat.decLe _ _

instance : IsTotal Message msgAsc := ⟨fun _ _ => Nat.le_total _ _⟩

instance : IsTrans Message msgAsc := ⟨fun _ _ _ => Nat.le_trans⟩

/-- Descending order on post creation time (`ORDER BY created_at DESC`). -/
def postDesc (a b : Post) : Prop := b.created_at ≤ a.created_at

instance : DecidableRel postDesc := fun _ _ => Nat.decLe _ _

instance : IsTotal Post postDesc := ⟨fun _ _ => Nat.le_total _ _⟩

instance : IsTrans Post postDesc := ⟨fun _ _ _ h1 h2 => Nat.le_trans h2 h1⟩

/-- Predicate of `get_conversation`'s filter: the message travels between
`user1_id` and `user2_id` in either direction (`message_service.py` 20-24). -/
def betweenPair (user1_id user2_id : Nat) (m : Message) : Prop :=
  (m.sender_id = user1_id ∧ m.receiver_id = user2_id) ∨
  (m.sender_id = user2_id ∧ m.receiver_id = user1_id)

instance (u1 u2 : Nat) : DecidablePred (betweenPair u1 u2) := fun m => by
  unfold betweenPair; infer_instance

/-- `send_message` (`message_service.py` 6-16): plain insert, unread by default. -/
def send_message (db : DB) (sender_id receiver_id : Nat) (content : String) :
    DB × Message :=
  let message : Message :=
    { id := db.next_message_id, sender_id := sender_id, receiver_id := receiver_id,
      content := content, read := false, created_at := db.now }
  ({ db with messages := db.messages ++ [message],
             next_message_id := db.next_message_id + 1 }, message)

/-- `get_conversation` (`message_service.py` 18-25): messages between the two
users in either direction, ordered by `created_at` ascending, capped at `limit`. -/
def get_conversation (db : DB) (user1_id user2_id limit : Nat) : List Message :=
  ((db.messages.filter fun m => decide (betweenPair user1_id user2_id m)).insertionSort
    msgAsc).take limit

/-- Predicate of `mark_messages_as_read`'s filter: unread message from
`sender_id` to `user_id` (`message_service.py` 29-33). -/
def unreadFrom (user_id sender_id : Nat) (m : Message) : Prop :=
  m.sender_id = sender_id ∧ m.receiver_id = user_id ∧ m.read = false

instance (u s : Nat) : DecidablePred (unreadFrom u s) := fun m => by
  unfold unreadFrom; infer_instance

/-- `mark_messages_as_read` (`message_service.py` 27-39): flips `read` to true
on every unread message from `sender_id` to `user_id`, returns the count. -/
def mark_messages_as_read (db : DB) (user_id sender_id : Nat) : DB × Nat :=
  let found := db.messages.filter fun m => decide (unreadFrom user_id sender_id m)
  ({ db with messages := db.messages.map fun m =>
      if unreadFrom user_id sender_id m then { m with read := true } else m },
   found.length)

/-- `get_unread_messages_count` (`message_service.py` 41-46): count of unread
messages addressed to the user. -/
def get_unread_messages_count (db : DB) (user_id : Nat) : Nat :=
  (db.messages.filter fun m => decide (m.receiver_id = user_id ∧ m.read = false)).length

/-- Domain image of the store-level error raised by `db.commit()` when a
unique constraint (`users.email`, `users.username`) is violated. -/
inductive DbError where
  | conflict
deriving DecidableEq, Repr

/-- `create_user` (`user_service.py` 10-22): hashes the password with the
external credential hasher (passed as the parameter `hash`), inserts the new
`User` row and returns it.  The unique indexes on `email` and `username`
(`database.py` 40-41) make the commit fail with a constraint violation when
either value is already taken; that failure is the `DbError.conflict` branch.
Column defaults from `database.py`: `headline`, `bio`, `location` are null,
`profile_image` defaults to the static placeholder path. -/
def create_user (hash : String → String) (db : DB)
    (email username password full_name : String) : Except DbError (DB × User) :=
  if db.users.any fun u => u.email == email || u.username == username then
    .error .conflict
  else
    let db_user : User :=
      { id := db.next_user_id, email := email, username := username,
        hashed_password := hash password, full_name := full_name,
        headline := none, bio := none,
        profile_image := some "/static/default_profile.png",
        location := none, created_at := db.now }
    .ok ({ db with users := db.users ++ [db_user],
                   next_user_id := db.next_user_id + 1 }, db_user)

/-- `get_user_by_id` (`user_service.py` 32-34): first row with that id, or none. -/
def get_user_by_id (db : DB) (user_id : Nat) : Option User :=
  db.users.find? fun u => u.id == user_id

/-- Attribute names a `User` ORM instance has, as tested by
`hasattr(user, key)` in `update_profile` (`user_service.py` 43): the mapped
columns plus the relationship attributes (`database.py` 39-66). -/
def userAttrNames : List String :=
  ["id", "email", "username", "hashed_password", "full_name", "headline",
   "bio", "profile_image", "location", "created_at",
   "experiences", "educations", "posts", "sent_messages", "received_messages",
   "sent_requests", "received_requests", "connections", "connected_to"]

/-- Attribute names on which `setattr(user, key, value)` with a string value
cannot survive `db.commit()`: `created_at` is a `DateTime` column (string
values are rejected at flush) and the relationship attributes do not accept
strings.  `update_profile` raises rather than returns when one of these keys
passes its guard. -/
def nonStringAttrNames : List String :=
  ["created_at",
   "experiences", "educations", "posts", "sent_messages", "received_messages",
   "sent_requests", "received_requests", "connections", "connected_to"]

/-- Effect of `setattr(user, key, value)` for a string `value` on a mapped
string column of `User` (`user_service.py` 44); nullable columns receive the
value as non-null.  Keys that are not settable string columns leave the row
unchanged (they are filtered out by the caller's guard or crash the call). -/
def setUserField (u : User) (key value : String) : User :=
  if key = "email" then { u with email := value }
  else if key = "username" then { u with username := value }
  else if key = "full_name" then { u with full_name := value }
  else if key = "headline" then { u with headline := some value }
  else if key = "bio" then { u with bio := some value }
  else if key = "profile_image" then { u with profile_image := some value }
  else if key = "location" then { u with location := some value }
  else u

/-- One iteration of `update_profile`'s loop (`user_service.py` 42-44):
apply the key/value pair when `hasattr(user, key)` holds and the key is
neither `id` nor `hashed_password`. -/
def updateStep (u : User) (kv : String × String) : User :=
  if kv.1 ∈ userAttrNames ∧ kv.1 ≠ "id" ∧ kv.1 ≠ "hashed_password" then
    setUserField u kv.1 kv.2
  else u

/-- `update_profile` (`user_service.py` 36-48): looks the user up (not-found
signal `(db, none)` when absent), then applies every guarded keyword argument
in order and commits the updated row.  A guarded key whose column cannot hold
a string (see `nonStringAttrNames`) makes the commit raise: outer `none`. -/
def update_profile (db : DB) (user_id : Nat) (kwargs : List (String × String)) :
    Option (DB × Option User) :=
  match get_user_by_id db user_id with
  | none => some (db, none)
  | some user =>
    if kwargs.any fun kv =>
        decide (kv.1 ∈ nonStringAttrNames ∧ kv.1 ≠ "id" ∧ kv.1 ≠ "hashed_password") then
      none
    else
      let user' := kwargs.foldl updateStep user
      some ({ db with users := db.users.map fun u =>
                if u.id = user_id then user' else u }, some user')

/-- `get_user_connections` (`user_service.py` 112-117): empty for a missing
user, otherwise the ORM relation `user.connections` — the users joined
through association rows `(user_id, u.id)` (`database.py` 60-66: primary
join on `connections.user_id`, secondary join on `connections.connection_id`). -/
def get_user_connections (db : DB) (user_id : Nat) : List User :=
  match get_user_by_id db user_id with
  | none => []
  | some _ => db.users.filter fun u => decide ((user_id, u.id) ∈ db.connections)

/-- `send_connection_request` (`user_service.py` 119-144).  Returns an
existing pending request unchanged; with no pending request it evaluates
`sender.connections` — an `AttributeError` (outer `none`) when the sender
row does not exist — and returns the null signal when the receiver is
already among the sender's connections; otherwise inserts a new request
with the default status "pending". -/
def send_connection_request (db : DB) (sender_id receiver_id : Nat) :
    Option (DB × Option ConnectionRequest) :=
  match db.requests.find? fun r =>
      r.sender_id == sender_id && r.receiver_id == receiver_id &&
      r.status == "pending" with
  | some existing_request => some (db, some existing_request)
  | none =>
    match get_user_by_id db sender_id with
    | none => none
    | some _ =>
      if (db.users.filter fun u => decide ((sender_id, u.id) ∈ db.connections)).any
          fun conn => conn.id == receiver_id then
        some (db, none)
      else
        let request : ConnectionRequest :=
          { id := db.next_request_id, sender_id := sender_id,
            receiver_id := receiver_id, status := "pending", created_at := db.now }
        some ({ db with requests := db.requests ++ [request],
                        next_request_id := db.next_request_id + 1 }, some request)

/-- `accept_connection_request` (`user_service.py` 146-162): null signal
unless the request exists and is pending; otherwise flips the status to
"accepted" and runs `sender.connections.append(receiver)`, which inserts the
single association row `(sender_id, receiver_id)`.  Outer `none` models the
`AttributeError`/flush failure when either user row is missing. -/
def accept_connection_request (db : DB) (request_id : Nat) :
    Option (DB × Option ConnectionRequest) :=
  match db.requests.find? fun r => r.id == request_id with
  | none => some (db, none)
  | some request =>
    if request.status ≠ "pending" then some (db, none)
    else
      match get_user_by_id db request.sender_id,
            get_user_by_id db request.receiver_id with
      | some _, some _ =>
        some ({ db with
                requests := db.requests.map fun r =>
                  if r.id = request_id then { r with status := "accepted" } else r,
                connections := db.connections ++
                  [(request.sender_id, request.receiver_id)] },
              some { request with status := "accepted" })
      | _, _ => none

/-- `reject_connection_request` (`user_service.py` 164-172): null signal
unless the request exists and is pending; otherwise flips the status to
"rejected".  No user lookup, no association row. -/
def reject_connection_request (db : DB) (request_id : Nat) :
    DB × Option ConnectionRequest :=
  match db.requests.find? fun r => r.id == request_id with
  | none => (db, none)
  | some request =>
    if request.status ≠ "pending" then (db, none)
    else
      ({ db with requests := db.requests.map fun r =>
          if r.id = request_id then { r with status := "rejected" } else r },
       some { request with status := "rejected" })

/-- `get_feed_posts` (`post_service.py` 43-54): empty for a missing user;
otherwise collects the ids of the user's connections plus the user's own id,
and returns the posts whose author is in that set, ordered by `created_at`
descending, with `offset skip` and `limit`. -/
def get_feed_posts (db : DB) (user_id skip limit : Nat) : List Post :=
  match db.users.find? fun u => u.id == user_id with
  | none => []
  | some _ =>
    let connection_ids :=
      ((db.users.filter fun u => decide ((user_id, u.id) ∈ db.connections)).map
        fun conn => conn.id) ++ [user_id]
    ((((db.posts.filter fun p => decide (p.author_id ∈ connection_ids)).insertionSort
        postDesc).drop skip).take limit)

/-- `like_post` (`post_service.py` 72-87): returns the existing like when the
pair is already present, otherwise inserts a fresh `Like` row and returns it. -/
def like_post (db : DB) (post_id user_id : Nat) : DB × Like :=
  match db.likes.find? fun l => l.post_id == post_id && l.user_id == user_id with
  | some existing_like => (db, existing_like)
  | none =>
    let like : Like :=
      { id := db.next_like_id, post_id := post_id, user_id := user_id,
        created_at := db.now }
    ({ db with likes := db.likes ++ [like], next_like_id := db.next_like_id + 1 },
     like)

/-- `unlike_post` (`post_service.py` 89-96): deletes the like row for the
pair when present and returns true, otherwise returns false and changes
nothing. -/
def unlike_post (db : DB) (post_id user_id : Nat) : DB × Bool :=
  match db.likes.find? fun l => l.post_id == post_id && l.user_id == user_id with
  | some like => ({ db with likes := db.likes.filter fun l => l.id ≠ like.id }, true)
  | none => (db, false)

/-- `has_liked_post` (`post_service.py` 98-100): membership test for the pair. -/
def has_liked_post (db : DB) (post_id user_id : Nat) : Bool :=
  (db.likes.find? fun l => l.post_id == post_id && l.user_id == user_id).isSome

/-- `get_post_likes_count` (`post_service.py` 102-104): number of like rows
for the post. -/
def get_post_likes_count (db : DB) (post_id : Nat) : Nat :=
  (db.likes.filter fun l => l.post_id == post_id).length

/-! Concrete rows and stores used to exercise the services on small inputs. -/

/-- A concrete user row with id 1. -/
def alice : User :=
  ⟨1, "alice@x", "alice", "h1", "Alice A", none, none, none, none, 0⟩

/-- A concrete user row with id 2. -/
def bob : User :=
  ⟨2, "bob@x", "bob", "h2", "Bob B", none, none, none, none, 0⟩

/-- A store holding just the two users and no other rows. -/
def baseDb : DB :=
  ⟨[alice, bob], [], [], [], [], [], 3, 1, 1, 1, 100⟩

/-- The store with a pending connection request from user 1 to user 2. -/
def dbPending : DB :=
  ⟨[alice, bob], [], [⟨1, 1, 2, "pending", 0⟩], [], [], [], 3, 2, 1, 1, 100⟩

/-- The store with an already-accepted connection request from user 1 to user 2. -/
def dbAccepted : DB :=
  ⟨[alice, bob], [(1, 2)], [⟨1, 1, 2, "accepted", 0⟩], [], [], [], 3, 2, 1, 1, 100⟩

/-- C1: claimed — after `accept_connection_request` succeeds on a pending
request from A to B, `get_user_connections A` contains B and
`get_user_connections B` contains A.  The code violates this: accepting the
pending request 1→2 in `dbPending` succeeds (status becomes "accepted") and
adds only the single association row `(1, 2)`, so user 1's connections list
is exactly `[2]` while user 2's connections list is empty — the symmetry the
code's own comment ("Add connection to both users") promises never holds. -/
theorem accept_adds_only_one_directed_edge :
    ((accept_connection_request dbPending 1).map fun res =>
      ((get_user_connections res.1 1).map User.id,
       (get_user_connections res.1 2).map User.id,
       res.2.map ConnectionRequest.status)) =
    some ([2], [], some "accepted") := by
  rfl

/-- C5: a `ConnectionRequest` whose status is "accepted" or "rejected" is
terminal — calling `accept_connection_request` or `reject_connection_request`
on it returns the not-found/null signal, leaves the store unchanged (hence no
status change and no new connection edge). -/
theorem terminal_request_noop (db : DB) (rid : Nat) (req : ConnectionRequest)
    (hfind : db.requests.find? (fun r => r.id == rid) = some req)
    (hterm : req.status = "accepted" ∨ req.status = "rejected") :
    accept_connection_request db rid = some (db, none) ∧
    reject_connection_request db rid = (db, none) := by
  have hne : req.status ≠ "pending" := by
    rcases hterm with h | h <;> rw [h] <;> decide
  constructor
  · unfold accept_connection_request
    rw [hfind]
    simp [hne]
  · unfold reject_connection_request
    rw [hfind]
    simp [hne]

/-- Witness for C5: in `dbAccepted`, request 1 is already accepted; both
calls return the store unchanged with the null signal. -/
theorem terminal_request_noop_witness :
    accept_connection_request dbAccepted 1 = some (dbAccepted, none) ∧
    reject_connection_request dbAccepted 1 = (dbAccepted, none) :=
  terminal_request_noop dbAccepted 1 ⟨1, 1, 2, "accepted", 0⟩ rfl (Or.inl rfl)

/-- C10: `send_connection_request` dereferences the sender row
(`sender.connections`) after the pending-request check, so when no user with
`sender_id` exists and no pending request from `sender_id` to `receiver_id`
is on file, the call raises (`none` in the embedding) instead of returning a
null/no-op signal: the operation is total only when the sender exists. -/
theorem send_request_needs_sender (db : DB) (sender_id receiver_id : Nat)
    (hnouser : get_user_by_id db sender_id = none)
    (hnoreq : ∀ r ∈ db.requests,
      ¬(r.sender_id = sender_id ∧ r.receiver_id = receiver_id ∧
        r.status = "pending")) :
    send_connection_request db sender_id receiver_id = none := by
  have hfind : (db.requests.find? fun r =>
      r.sender_id == sender_id && r.receiver_id == receiver_id &&
      r.status == "pending") = none := by
    rw [List.find?_eq_none]
    intro r hr
    have h := hnoreq r hr
    simp only [Bool.and_eq_true, beq_iff_eq]
    tauto
  unfold send_connection_request
  rw [hfind, hnouser]

/-- Witness for C10: in `baseDb` user 9 does not exist and no request is on
file, so sending a request from 9 crashes (returns `none`). -/
theorem send_request_needs_sender_witness :
    send_connection_request baseDb 9 2 = none :=
  send_request_needs_sender baseDb 9 2 rfl (by intro r hr; simp [baseDb] at hr)

/-- Branch lemma: when a like row for the pair is on file, `like_post`
returns it and leaves the store unchanged. -/
theorem like_post_found (db : DB) (post_id user_id : Nat) (lk : Like)
    (h : db.likes.find?
      (fun l => l.post_id == post_id && l.user_id == user_id) = some lk) :
    like_post db post_id user_id = (db, lk) := by
  unfold like_post
  rw [h]

/-- Branch lemma: when no like row for the pair is on file, `like_post`
inserts a fresh row. -/
theorem like_post_not_found (db : DB) (post_id user_id : Nat)
    (h : db.likes.find?
      (fun l => l.post_id == post_id && l.user_id == user_id) = none) :
    like_post db post_id user_id =
      ({ db with likes := db.likes ++ [⟨db.next_like_id, post_id, user_id, db.now⟩],
                 next_like_id := db.next_like_id + 1 },
       ⟨db.next_like_id, post_id, user_id, db.now⟩) := by
  unfold like_post
  rw [h]

/-- C2: starting from a store with no Like row for `(post_id, user_id)`,
calling `like_post` twice leaves exactly one Like row for the pair and
`get_post_likes_count` is larger by exactly one than before the first call;
`unlike_post` with no Like row for the pair returns false and leaves the
store unchanged. -/
theorem like_twice_unlike_absent (db : DB) (post_id user_id : Nat)
    (hnone : db.likes.filter
      (fun l => l.post_id == post_id && l.user_id == user_id) = []) :
    ((like_post (like_post db post_id user_id).1 post_id user_id).1.likes.filter
        fun l => l.post_id == post_id && l.user_id == user_id).length = 1 ∧
    get_post_likes_count
        (like_post (like_post db post_id user_id).1 post_id user_id).1 post_id =
      get_post_likes_count db post_id + 1 ∧
    unlike_post db post_id user_id = (db, false) := by
  have hfind : (db.likes.find? fun l =>
      l.post_id == post_id && l.user_id == user_id) = none := by
    rw [List.find?_eq_none]
    exact List.filter_eq_nil_iff.mp hnone
  have hdb1 : (like_post db post_id user_id).1 =
      { db with likes := db.likes ++ [⟨db.next_like_id, post_id, user_id, db.now⟩],
                next_like_id := db.next_like_id + 1 } := by
    rw [like_post_not_found db post_id user_id hfind]
  have hfind2 : (((like_post db post_id user_id).1.likes).find? fun l =>
      l.post_id == post_id && l.user_id == user_id) =
      some ⟨db.next_like_id, post_id, user_id, db.now⟩ := by
    rw [hdb1]
    rw [List.find?_append, hfind]
    simp
  have hdb2 : (like_post (like_post db post_id user_id).1 post_id user_id).1 =
      (like_post db post_id user_id).1 := by
    rw [like_post_found _ post_id user_id _ hfind2]
  refine ⟨?_, ?_, ?_⟩
  · rw [hdb2, hdb1]
    simp [List.filter_append, hnone]
  · rw [hdb2, hdb1]
    unfold get_post_likes_count
    simp [List.filter_append]
  · unfold unlike_post
    rw [hfind]

/-- Witness for C2: in `baseDb` (no likes at all), liking post 7 twice as
user 1 yields one row and a count one higher; unliking returns false. -/
theorem like_twice_unlike_absent_witness :
    ((like_post (like_post baseDb 7 1).1 7 1).1.likes.filter
        fun l => l.post_id == 7 && l.user_id == 1).length = 1 ∧
    get_post_likes_count (like_post (like_post baseDb 7 1).1 7 1).1 7 =
      get_post_likes_count baseDb 7 + 1 ∧
    unlike_post baseDb 7 1 = (baseDb, false) :=
  like_twice_unlike_absent baseDb 7 1 rfl

/-- A store in which user 1 has sent user 2 three unread messages, at
times 10 < 20 < 30. -/
def dbMsgs : DB :=
  ⟨[alice, bob], [], [], [], [],
   [⟨1, 1, 2, "m1", false, 10⟩, ⟨2, 1, 2, "m2", false, 20⟩,
    ⟨3, 1, 2, "m3", false, 30⟩], 3, 1, 1, 4, 100⟩

/-- Counting helper: flipping `read` on exactly the unread `s`→`u` messages
lowers the number of unread messages addressed to `u` by the number flipped. -/
theorem unread_count_after_flip (u s : Nat) (l : List Message) :
    ((l.map fun m => if unreadFrom u s m then { m with read := true } else m).filter
        fun m => decide (m.receiver_id = u ∧ m.read = false)).length +
      (l.filter fun m => decide (unreadFrom u s m)).length =
      (l.filter fun m => decide (m.receiver_id = u ∧ m.read = false)).length := by
  induction l with
  | nil => rfl
  | cons m l ih =>
    by_cases hf : unreadFrom u s m
    · simp only [List.map_cons, List.filter_cons, if_pos hf, decide_eq_true_eq]
      rw [if_neg (by simp : ¬(({ m with read := true } : Message).receiver_id = u ∧
            ({ m with read := true } : Message).read = false)),
          if_pos (show m.receiver_id = u ∧ m.read = false from ⟨hf.2.1, hf.2.2⟩)]
      simp only [List.length_cons]
      omega
    · simp only [List.map_cons, List.filter_cons, if_neg hf, decide_eq_true_eq]
      by_cases hq : m.receiver_id = u ∧ m.read = false
      · simp only [if_pos hq, List.length_cons]
        omega
      · simp only [if_neg hq]
        omega

/-- C7: `mark_messages_as_read` returns the number of unread messages from
`sender_id` to `user_id`; afterwards every message from `sender_id` to
`user_id` is read, every row is either untouched or an unread
`sender_id`→`user_id` row with only its read flag flipped, and the unread
count of `user_id` drops by exactly the returned number. -/
theorem mark_messages_as_read_spec (db : DB) (user_id sender_id : Nat) :
    (mark_messages_as_read db user_id sender_id).2 =
      (db.messages.filter fun m => decide (unreadFrom user_id sender_id m)).length ∧
    (∀ m ∈ (mark_messages_as_read db user_id sender_id).1.messages,
      m.sender_id = sender_id → m.receiver_id = user_id → m.read = true) ∧
    (∀ i, ∀ h : i < db.messages.length,
      ∃ h' : i < (mark_messages_as_read db user_id sender_id).1.messages.length,
        (mark_messages_as_read db user_id sender_id).1.messages.get ⟨i, h'⟩ =
          if unreadFrom user_id sender_id (db.messages.get ⟨i, h⟩) then
            { db.messages.get ⟨i, h⟩ with read := true }
          else db.messages.get ⟨i, h⟩) ∧
    get_unread_messages_count (mark_messages_as_read db user_id sender_id).1 user_id =
      get_unread_messages_count db user_id -
        (mark_messages_as_read db user_id sender_id).2 := by
  refine ⟨rfl, ?_, ?_, ?_⟩
  · intro m hm hs hr
    have hm' : m ∈ db.messages.map fun m =>
        if unreadFrom user_id sender_id m then { m with read := true } else m := hm
    obtain ⟨m0, hm0, heq⟩ := List.mem_map.mp hm'
    by_cases hf : unreadFrom user_id sender_id m0
    · rw [if_pos hf] at heq
      rw [← heq]
    · rw [if_neg hf] at heq
      rw [heq] at hf
      rcases Bool.eq_false_or_eq_true m.read with hread | hread
      · exact hread
      · exact absurd ⟨hs, hr, hread⟩ hf
  · intro i h
    have h' : i < (mark_messages_as_read db user_id sender_id).1.messages.length := by
      show i < (db.messages.map fun m =>
        if unreadFrom user_id sender_id m then ({ m with read := true } : Message)
        else m).length
      simpa using h
    refine ⟨h', ?_⟩
    show (db.messages.map fun m =>
      if unreadFrom user_id sender_id m then ({ m with read := true } : Message)
      else m).get ⟨i, h'⟩ = _
    rw [List.get_map]
  · have h := unread_count_after_flip user_id sender_id db.messages
    show ((db.messages.map fun m =>
        if unreadFrom user_id sender_id m then { m with read := true } else m).filter
          fun m => decide (m.receiver_id = user_id ∧ m.read = false)).length =
      (db.messages.filter
          fun m => decide (m.receiver_id = user_id ∧ m.read = false)).length -
        (db.messages.filter
          fun m => decide (unreadFrom user_id sender_id m)).length
    omega

/-- Witness for C7: in `dbMsgs` user 1 has sent user 2 three unread messages;
`mark_messages_as_read 2 1` returns 3 and the unread count drops from 3 to 0. -/
theorem mark_messages_as_read_spec_witness :
    (mark_messages_as_read dbMsgs 2 1).2 = 3 ∧
    get_unread_messages_count (mark_messages_as_read dbMsgs 2 1).1 2 =
      get_unread_messages_count dbMsgs 2 - (mark_messages_as_read dbMsgs 2 1).2 :=
  ⟨by rw [(mark_messages_as_read_spec dbMsgs 2 1).1]; rfl,
   (mark_messages_as_read_spec dbMsgs 2 1).2.2.2⟩

/-- C9: `create_user` fails with the domain conflict error exactly when the
given email or username is already taken (the store's unique constraint on
`users.email`/`users.username`), and otherwise inserts the new user row at
the end of the table and returns it, with the hashed credential and the
given profile values. -/
theorem create_user_conflict_or_insert (hash : String → String) (db : DB)
    (email username password full_name : String) :
    ((∃ u ∈ db.users, u.email = email ∨ u.username = username) →
      create_user hash db email username password full_name = .error .conflict) ∧
    ((∀ u ∈ db.users, u.email ≠ email ∧ u.username ≠ username) →
      ∃ nu : User,
        create_user hash db email username password full_name =
          .ok ({ db with users := db.users ++ [nu],
                         next_user_id := db.next_user_id + 1 }, nu) ∧
        nu.email = email ∧ nu.username = username ∧
        nu.hashed_password = hash password ∧ nu.full_name = full_name) := by
  constructor
  · rintro ⟨u, hu, hdup⟩
    have hany : (db.users.any fun u =>
        u.email == email || u.username == username) = true := by
      rw [List.any_eq_true]
      exact ⟨u, hu, by rcases hdup with h | h <;> simp [h]⟩
    unfold create_user
    rw [if_pos hany]
  · intro hfresh
    have hany : (db.users.any fun u =>
        u.email == email || u.username == username) = false := by
      rw [List.any_eq_false]
      intro u hu
      have h := hfresh u hu
      simp [h.1, h.2]
    refine ⟨{ id := db.next_user_id, email := email, username := username,
              hashed_password := hash password, full_name := full_name,
              headline := none, bio := none,
              profile_image := some "/static/default_profile.png",
              location := none, created_at := db.now }, ?_, rfl, rfl, rfl, rfl⟩
    unfold create_user
    simp only [hany, Bool.false_eq_true, if_false]

/-- Witness for C9: creating a user with Alice's email conflicts; creating a
fresh one inserts and returns the new row. -/
theorem create_user_conflict_or_insert_witness :
    create_user (fun p => p) baseDb "alice@x" "newname" "pw" "N" =
      .error .conflict ∧
    ∃ nu : User,
      create_user (fun p => p) baseDb "carol@x" "carol" "pw" "Carol" =
        .ok ({ baseDb with users := baseDb.users ++ [nu],
                           next_user_id := baseDb.next_user_id + 1 }, nu) ∧
      nu.email = "carol@x" ∧ nu.username = "carol" ∧
      nu.hashed_password = "pw" ∧ nu.full_name = "Carol" :=
  ⟨(create_user_conflict_or_insert (fun p => p) baseDb
      "alice@x" "newname" "pw" "N").1 ⟨alice, by simp [baseDb], Or.inl rfl⟩,
   (create_user_conflict_or_insert (fun p => p) baseDb
      "carol@x" "carol" "pw" "Carol").2 (by decide)⟩

/-- C4: `send_connection_request` is idempotent.  If a pending request from
S to R is on file it returns one (the first such row) unchanged and inserts
nothing; with no pending request and S an existing user, it returns the null
signal and creates nothing when R is already among S's connections, and
otherwise inserts and returns a new request with status "pending". -/
theorem send_request_spec (db : DB) (S R : Nat) :
    (∀ req ∈ db.requests, req.sender_id = S → req.receiver_id = R →
      req.status = "pending" →
      ∃ req0, send_connection_request db S R = some (db, some req0) ∧
        req0 ∈ db.requests ∧ req0.sender_id = S ∧ req0.receiver_id = R ∧
        req0.status = "pending") ∧
    (∀ sender, get_user_by_id db S = some sender →
      (∀ req ∈ db.requests, ¬(req.sender_id = S ∧ req.receiver_id = R ∧
        req.status = "pending")) →
      ((∃ u ∈ get_user_connections db S, u.id = R) →
        send_connection_request db S R = some (db, none)) ∧
      ((∀ u ∈ get_user_connections db S, u.id ≠ R) →
        send_connection_request db S R =
          some ({ db with
                  requests := db.requests ++
                    [⟨db.next_request_id, S, R, "pending", db.now⟩],
                  next_request_id := db.next_request_id + 1 },
                some ⟨db.next_request_id, S, R, "pending", db.now⟩))) := by
  constructor
  · intro req hreq hs hr hst
    have hex : ∃ r0, (db.requests.find? fun r =>
        r.sender_id == S && r.receiver_id == R && r.status == "pending") =
        some r0 := by
      rcases h : db.requests.find? fun r =>
          r.sender_id == S && r.receiver_id == R && r.status == "pending" with
        _ | r0
      · rw [List.find?_eq_none] at h
        exact absurd (by simp [hs, hr, hst]) (h req hreq)
      · exact ⟨r0, h⟩
    obtain ⟨r0, hfind⟩ := hex
    have hp := List.find?_some hfind
    simp only [Bool.and_eq_true, beq_iff_eq] at hp
    refine ⟨r0, ?_, List.mem_of_find?_eq_some hfind, hp.1.1, hp.1.2, hp.2⟩
    unfold send_connection_request
    rw [hfind]
  · intro sender hsender hnone
    have hfind : (db.requests.find? fun r =>
        r.sender_id == S && r.receiver_id == R && r.status == "pending") =
        none := by
      rw [List.find?_eq_none]
      intro r hr
      have h := hnone r hr
      simp only [Bool.and_eq_true, beq_iff_eq]
      tauto
    have hconn : get_user_connections db S =
        db.users.filter fun u => decide ((S, u.id) ∈ db.connections) := by
      unfold get_user_connections
      rw [hsender]
    constructor
    · rintro ⟨u, hu, huid⟩
      rw [hconn] at hu
      have hany : ((db.users.filter fun u =>
          decide ((S, u.id) ∈ db.connections)).any
            fun conn => conn.id == R) = true := by
        rw [List.any_eq_true]
        exact ⟨u, hu, by simp [huid]⟩
      simp only [send_connection_request, hfind, hsender]
      rw [if_pos hany]
    · intro hnc
      have hany : ((db.users.filter fun u =>
          decide ((S, u.id) ∈ db.connections)).any
            fun conn => conn.id == R) = false := by
        rw [List.any_eq_false]
        intro u hu
        have h := hnc u (by rw [hconn]; exact hu)
        simp [h]
      simp only [send_connection_request, hfind, hsender, hany,
        Bool.false_eq_true, if_false]

/-- Witness for C4: re-sending the pending 1→2 request in `dbPending` returns
it unchanged; sending between the connected users of `dbAccepted` returns the
null signal; sending 1→2 in `baseDb` inserts a fresh pending request. -/
theorem send_request_spec_witness :
    (∃ req0, send_connection_request dbPending 1 2 =
        some (dbPending, some req0) ∧
      req0 ∈ dbPending.requests ∧ req0.sender_id = 1 ∧ req0.receiver_id = 2 ∧
      req0.status = "pending") ∧
    send_connection_request dbAccepted 1 2 = some (dbAccepted, none) ∧
    send_connection_request baseDb 1 2 =
      some ({ baseDb with
              requests := baseDb.requests ++
                [⟨baseDb.next_request_id, 1, 2, "pending", baseDb.now⟩],
              next_request_id := baseDb.next_request_id + 1 },
            some ⟨baseDb.next_request_id, 1, 2, "pending", baseDb.now⟩) :=
  ⟨(send_request_spec dbPending 1 2).1 ⟨1, 1, 2, "pending", 0⟩
      (by simp [dbPending]) rfl rfl rfl,
   ((send_request_spec dbAccepted 1 2).2 alice rfl (by decide)).1
      ⟨bob, by decide, rfl⟩,
   ((send_request_spec baseDb 1 2).2 alice rfl (by decide)).2 (by decide)⟩

/-- Frame facts for a single `setattr`: the id, credential and creation time
are never written, and each mutable column is written only by its own key. -/
theorem setUserField_frame (u : User) (k v : String) :
    (setUserField u k v).id = u.id ∧
    (setUserField u k v).hashed_password = u.hashed_password ∧
    (setUserField u k v).created_at = u.created_at ∧
    (k ≠ "email" → (setUserField u k v).email = u.email) ∧
    (k ≠ "username" → (setUserField u k v).username = u.username) ∧
    (k ≠ "full_name" → (setUserField u k v).full_name = u.full_name) ∧
    (k ≠ "headline" → (setUserField u k v).headline = u.headline) ∧
    (k ≠ "bio" → (setUserField u k v).bio = u.bio) ∧
    (k ≠ "profile_image" → (setUserField u k v).profile_image = u.profile_image) ∧
    (k ≠ "location" → (setUserField u k v).location = u.location) := by
  unfold setUserField
  split_ifs <;>
    refine ⟨rfl, rfl, rfl, ?_, ?_, ?_, ?_, ?_, ?_, ?_⟩ <;>
    intro hne <;>
    first
      | rfl
      | exact absurd (by assumption) hne

/-- The same frame facts for one guarded loop iteration of `update_profile`. -/
theorem updateStep_frame (u : User) (kv : String × String) :
    (updateStep u kv).id = u.id ∧
    (updateStep u kv).hashed_password = u.hashed_password ∧
    (updateStep u kv).created_at = u.created_at ∧
    (kv.1 ≠ "email" → (updateStep u kv).email = u.email) ∧
    (kv.1 ≠ "username" → (updateStep u kv).username = u.username) ∧
    (kv.1 ≠ "full_name" → (updateStep u kv).full_name = u.full_name) ∧
    (kv.1 ≠ "headline" → (updateStep u kv).headline = u.headline) ∧
    (kv.1 ≠ "bio" → (updateStep u kv).bio = u.bio) ∧
    (kv.1 ≠ "profile_image" → (updateStep u kv).profile_image = u.profile_image) ∧
    (kv.1 ≠ "location" → (updateStep u kv).location = u.location) := by
  unfold updateStep
  split_ifs
  · exact setUserField_frame u kv.1 kv.2
  · exact ⟨rfl, rfl, rfl, fun _ => rfl, fun _ => rfl, fun _ => rfl, fun _ => rfl,
      fun _ => rfl, fun _ => rfl, fun _ => rfl⟩

/-- The same frame facts for the whole `update_profile` loop. -/
theorem foldl_updateStep_frame (l : List (String × String)) (u : User) :
    (l.foldl updateStep u).id = u.id ∧
    (l.foldl updateStep u).hashed_password = u.hashed_password ∧
    (l.foldl updateStep u).created_at = u.created_at ∧
    ((∀ kv ∈ l, kv.1 ≠ "email") → (l.foldl updateStep u).email = u.email) ∧
    ((∀ kv ∈ l, kv.1 ≠ "username") →
      (l.foldl updateStep u).username = u.username) ∧
    ((∀ kv ∈ l, kv.1 ≠ "full_name") →
      (l.foldl updateStep u).full_name = u.full_name) ∧
    ((∀ kv ∈ l, kv.1 ≠ "headline") →
      (l.foldl updateStep u).headline = u.headline) ∧
    ((∀ kv ∈ l, kv.1 ≠ "bio") → (l.foldl updateStep u).bio = u.bio) ∧
    ((∀ kv ∈ l, kv.1 ≠ "profile_image") →
      (l.foldl updateStep u).profile_image = u.profile_image) ∧
    ((∀ kv ∈ l, kv.1 ≠ "location") →
      (l.foldl updateStep u).location = u.location) := by
  induction l generalizing u with
  | nil =>
    exact ⟨rfl, rfl, rfl, fun _ => rfl, fun _ => rfl, fun _ => rfl, fun _ => rfl,
      fun _ => rfl, fun _ => rfl, fun _ => rfl⟩
  | cons kv l ih =>
    rw [List.foldl_cons]
    obtain ⟨i1, i2, i3, i4, i5, i6, i7, i8, i9, i10⟩ := ih (updateStep u kv)
    obtain ⟨s1, s2, s3, s4, s5, s6, s7, s8, s9, s10⟩ := updateStep_frame u kv
    have hhd : kv ∈ kv :: l := List.mem_cons_self kv l
    have htl : ∀ x : String × String, x ∈ l → x ∈ kv :: l :=
      fun x hx => List.mem_cons_of_mem kv hx
    refine ⟨i1.trans s1, i2.trans s2, i3.trans s3, ?_, ?_, ?_, ?_, ?_, ?_, ?_⟩
    · intro h
      exact (i4 fun x hx => h x (htl x hx)).trans (s4 (h kv hhd))
    · intro h
      exact (i5 fun x hx => h x (htl x hx)).trans (s5 (h kv hhd))
    · intro h
      exact (i6 fun x hx => h x (htl x hx)).trans (s6 (h kv hhd))
    · intro h
      exact (i7 fun x hx => h x (htl x hx)).trans (s7 (h kv hhd))
    · intro h
      exact (i8 fun x hx => h x (htl x hx)).trans (s8 (h kv hhd))
    · intro h
      exact (i9 fun x hx => h x (htl x hx)).trans (s9 (h kv hhd))
    · intro h
      exact (i10 fun x hx => h x (htl x hx)).trans (s10 (h kv hhd))

/-- C8: `update_profile` returns the not-found signal when the user does not
exist; otherwise (for field maps whose guarded keys are string-settable) it
commits a row with the same id, credential and creation time, leaves every
field whose key is absent from the map unchanged, and returns the updated
user; a key that is not an attribute of `User` is silently ignored. -/
theorem update_profile_spec (db : DB) (user_id : Nat)
    (kwargs : List (String × String)) :
    (get_user_by_id db user_id = none →
      update_profile db user_id kwargs = some (db, none)) ∧
    (∀ user, get_user_by_id db user_id = some user →
      (∀ kv ∈ kwargs, kv.1 ∉ nonStringAttrNames) →
      ∃ user', update_profile db user_id kwargs =
          some ({ db with users := db.users.map fun u =>
                    if u.id = user_id then user' else u }, some user') ∧
        user'.id = user.id ∧
        user'.hashed_password = user.hashed_password ∧
        user'.created_at = user.created_at ∧
        ((∀ kv ∈ kwargs, kv.1 ≠ "email") → user'.email = user.email) ∧
        ((∀ kv ∈ kwargs, kv.1 ≠ "username") → user'.username = user.username) ∧
        ((∀ kv ∈ kwargs, kv.1 ≠ "full_name") →
          user'.full_name = user.full_name) ∧
        ((∀ kv ∈ kwargs, kv.1 ≠ "headline") → user'.headline = user.headline) ∧
        ((∀ kv ∈ kwargs, kv.1 ≠ "bio") → user'.bio = user.bio) ∧
        ((∀ kv ∈ kwargs, kv.1 ≠ "profile_image") →
          user'.profile_image = user.profile_image) ∧
        ((∀ kv ∈ kwargs, kv.1 ≠ "location") → user'.location = user.location)) ∧
    (∀ k v, k ∉ userAttrNames →
      update_profile db user_id ((k, v) :: kwargs) =
        update_profile db user_id kwargs) := by
  refine ⟨?_, ?_, ?_⟩
  · intro h
    unfold update_profile
    rw [h]
  · intro user huser hsafe
    have hany : (kwargs.any fun kv =>
        decide (kv.1 ∈ nonStringAttrNames ∧ kv.1 ≠ "id" ∧
          kv.1 ≠ "hashed_password")) = false := by
      rw [List.any_eq_false]
      intro kv hkv
      simp [hsafe kv hkv]
    refine ⟨kwargs.foldl updateStep user, ?_, ?_⟩
    · simp only [update_profile, huser, hany, Bool.false_eq_true, if_false]
    · exact foldl_updateStep_frame kwargs user
  · intro k v hk
    have hsub : ∀ x ∈ nonStringAttrNames, x ∈ userAttrNames := by decide
    have hk' : k ∉ nonStringAttrNames := fun hmem => hk (hsub k hmem)
    have hanyEq : (((k, v) :: kwargs).any fun kv =>
        decide (kv.1 ∈ nonStringAttrNames ∧ kv.1 ≠ "id" ∧
          kv.1 ≠ "hashed_password")) =
        kwargs.any fun kv =>
          decide (kv.1 ∈ nonStringAttrNames ∧ kv.1 ≠ "id" ∧
            kv.1 ≠ "hashed_password") := by
      rw [List.any_cons]
      have hfalse : decide ((k, v).1 ∈ nonStringAttrNames ∧ (k, v).1 ≠ "id" ∧
          (k, v).1 ≠ "hashed_password") = false := by
        simp [hk']
      rw [hfalse, Bool.false_or]
    rcases huser : get_user_by_id db user_id with _ | user
    · simp only [update_profile, huser]
    · have hstep : updateStep user (k, v) = user := by
        unfold updateStep
        rw [if_neg]
        intro hcon
        exact hk hcon.1
      simp only [update_profile, huser]
      rw [hanyEq, List.foldl_cons, hstep]

/-- Witness for C8: updating Alice's headline changes only the headline, and
an unknown field name is ignored. -/
theorem update_profile_spec_witness :
    (∃ user', update_profile baseDb 1 [("headline", "Engineer")] =
        some ({ baseDb with users := baseDb.users.map fun u =>
                  if u.id = 1 then user' else u }, some user') ∧
      user'.id = alice.id ∧
      user'.hashed_password = alice.hashed_password ∧
      user'.created_at = alice.created_at ∧
      ((∀ kv ∈ [("headline", "Engineer")], kv.1 ≠ "email") →
        user'.email = alice.email) ∧
      ((∀ kv ∈ [("headline", "Engineer")], kv.1 ≠ "username") →
        user'.username = alice.username) ∧
      ((∀ kv ∈ [("headline", "Engineer")], kv.1 ≠ "full_name") →
        user'.full_name = alice.full_name) ∧
      ((∀ kv ∈ [("headline", "Engineer")], kv.1 ≠ "headline") →
        user'.headline = alice.headline) ∧
      ((∀ kv ∈ [("headline", "Engineer")], kv.1 ≠ "bio") →
        user'.bio = alice.bio) ∧
      ((∀ kv ∈ [("headline", "Engineer")], kv.1 ≠ "profile_image") →
        user'.profile_image = alice.profile_image) ∧
      ((∀ kv ∈ [("headline", "Engineer")], kv.1 ≠ "location") →
        user'.location = alice.location)) ∧
    update_profile baseDb 1 [("unknown_field", "zz")] =
      update_profile baseDb 1 [] :=
  ⟨(update_profile_spec baseDb 1 [("headline", "Engineer")]).2.1 alice rfl
      (by decide),
   (update_profile_spec baseDb 1 []).2.2 "unknown_field" "zz" (by decide)⟩

/-- C3: `get_conversation` returns exactly the messages whose
(sender, receiver) pair is (A, B) or (B, A) — every returned message is such
a message, and when the matching messages fit in `limit`, all of them are
returned — ordered oldest-first by creation time, capped at `limit`, and the
cap keeps the oldest end: anything strictly older than a returned matching
message is also returned. -/
theorem conversation_spec (db : DB) (user1_id user2_id limit : Nat) :
    (∀ m ∈ get_conversation db user1_id user2_id limit,
      m ∈ db.messages ∧ betweenPair user1_id user2_id m) ∧
    List.Sorted msgAsc (get_conversation db user1_id user2_id limit) ∧
    (get_conversation db user1_id user2_id limit).length =
      min (db.messages.filter fun m =>
        decide (betweenPair user1_id user2_id m)).length limit ∧
    ((db.messages.filter fun m =>
        decide (betweenPair user1_id user2_id m)).length ≤ limit →
      ∀ m ∈ db.messages, betweenPair user1_id user2_id m →
        m ∈ get_conversation db user1_id user2_id limit) ∧
    (∀ m ∈ get_conversation db user1_id user2_id limit,
      ∀ mOld ∈ db.messages, betweenPair user1_id user2_id mOld →
        mOld.created_at < m.created_at →
        mOld ∈ get_conversation db user1_id user2_id limit) := by
  have hsort : List.Sorted msgAsc ((db.messages.filter fun m =>
      decide (betweenPair user1_id user2_id m)).insertionSort msgAsc) :=
    List.sorted_insertionSort msgAsc _
  have hperm : List.Perm ((db.messages.filter fun m =>
      decide (betweenPair user1_id user2_id m)).insertionSort msgAsc)
      (db.messages.filter fun m => decide (betweenPair user1_id user2_id m)) :=
    List.perm_insertionSort msgAsc _
  refine ⟨?_, ?_, ?_, ?_, ?_⟩
  · intro m hm
    have hm' : m ∈ (db.messages.filter fun m =>
        decide (betweenPair user1_id user2_id m)).insertionSort msgAsc :=
      List.take_subset limit _ hm
    have hmf := hperm.mem_iff.mp hm'
    have := List.mem_filter.mp hmf
    exact ⟨this.1, of_decide_eq_true this.2⟩
  · exact List.Pairwise.sublist (List.take_sublist limit _) hsort
  · show (((db.messages.filter fun m =>
        decide (betweenPair user1_id user2_id m)).insertionSort msgAsc).take
          limit).length = _
    rw [List.length_take, hperm.length_eq, Nat.min_comm]
  · intro hle m hm hbp
    have hms : m ∈ (db.messages.filter fun m =>
        decide (betweenPair user1_id user2_id m)).insertionSort msgAsc :=
      hperm.mem_iff.mpr (List.mem_filter.mpr ⟨hm, decide_eq_true hbp⟩)
    show m ∈ ((db.messages.filter fun m =>
        decide (betweenPair user1_id user2_id m)).insertionSort msgAsc).take limit
    rw [List.take_of_length_le (by rw [hperm.length_eq]; exact hle)]
    exact hms
  · intro m hm mOld hmOld hbp hlt
    have hms : mOld ∈ (db.messages.filter fun m =>
        decide (betweenPair user1_id user2_id m)).insertionSort msgAsc :=
      hperm.mem_iff.mpr (List.mem_filter.mpr ⟨hmOld, decide_eq_true hbp⟩)
    have hsplit := List.take_append_drop limit ((db.messages.filter fun m =>
        decide (betweenPair user1_id user2_id m)).insertionSort msgAsc)
    rw [← hsplit] at hms
    rcases List.mem_append.mp hms with h | h
    · exact h
    · have hpw := hsort
      rw [← hsplit] at hpw
      have hrel : msgAsc m mOld := (List.pairwise_append.mp hpw).2.2 m hm mOld h
      have hcontra : ¬ (m.created_at ≤ mOld.created_at) := by omega
      exact absurd hrel hcontra

/-- A store with three messages between users 1 and 2, created at times
10 < 20 < 30 and inserted out of order, plus one message to a third party. -/
def dbConv : DB :=
  ⟨[alice, bob], [], [], [], [],
   [⟨1, 1, 2, "b", false, 20⟩, ⟨2, 2, 1, "a", false, 10⟩,
    ⟨3, 1, 2, "c", false, 30⟩, ⟨4, 1, 3, "x", false, 5⟩], 3, 1, 1, 5, 100⟩

/-- Witness for C3: the conversation between 1 and 2 in `dbConv` is the three
matching messages in order of creation time [10, 20, 30], excludes the
message to user 3, and contains the oldest matching message. -/
theorem conversation_spec_witness :
    get_conversation dbConv 1 2 50 =
      [⟨2, 2, 1, "a", false, 10⟩, ⟨1, 1, 2, "b", false, 20⟩,
       ⟨3, 1, 2, "c", false, 30⟩] ∧
    List.Sorted msgAsc (get_conversation dbConv 1 2 50) ∧
    (⟨2, 2, 1, "a", false, 10⟩ : Message) ∈ get_conversation dbConv 1 2 50 :=
  ⟨by decide, (conversation_spec dbConv 1 2 50).2.1,
   (conversation_spec dbConv 1 2 50).2.2.2.1 (by decide)
     ⟨2, 2, 1, "a", false, 10⟩ (by decide) (by decide)⟩

/-- C6: every post in `get_feed_posts` is a stored post authored by the user
or one of the user's current connections; the feed is ordered newest-first
and holds at most `limit` posts; and on the first page (skip 0, matching
posts within `limit`) every post by the user or a connection appears.  A
post by an author who is neither the user nor connected to the user is never
included (contrapositive of the first conjunct). -/
theorem feed_spec (db : DB) (user_id skip limit : Nat) :
    (∀ p ∈ get_feed_posts db user_id skip limit,
      p ∈ db.posts ∧ (p.author_id = user_id ∨
        ∃ u ∈ get_user_connections db user_id, u.id = p.author_id)) ∧
    List.Sorted postDesc (get_feed_posts db user_id skip limit) ∧
    (get_feed_posts db user_id skip limit).length ≤ limit ∧
    (∀ userRow, get_user_by_id db user_id = some userRow → skip = 0 →
      (db.posts.filter fun p => decide (p.author_id = user_id ∨
        ∃ u ∈ get_user_connections db user_id, u.id = p.author_id)).length ≤
        limit →
      ∀ p ∈ db.posts, (p.author_id = user_id ∨
        ∃ u ∈ get_user_connections db user_id, u.id = p.author_id) →
        p ∈ get_feed_posts db user_id skip limit) := by
  rcases hu : db.users.find? fun u => u.id == user_id with _ | userRow
  · have hfeed : get_feed_posts db user_id skip limit = [] := by
      unfold get_feed_posts
      rw [hu]
    refine ⟨?_, ?_, ?_, ?_⟩
    · intro p hp
      rw [hfeed] at hp
      exact absurd hp (List.not_mem_nil p)
    · rw [hfeed]
      exact List.sorted_nil
    · rw [hfeed]
      exact Nat.zero_le _
    · intro userRow h'
      unfold get_user_by_id at h'
      rw [hu] at h'
      simp at h'
  · have hfeed : get_feed_posts db user_id skip limit =
        (((db.posts.filter fun p => decide (p.author_id ∈
            ((db.users.filter fun u =>
              decide ((user_id, u.id) ∈ db.connections)).map fun conn => conn.id)
              ++ [user_id])).insertionSort postDesc).drop skip).take limit := by
      unfold get_feed_posts
      rw [hu]
    have hgc : get_user_connections db user_id =
        db.users.filter fun u => decide ((user_id, u.id) ∈ db.connections) := by
      unfold get_user_connections get_user_by_id
      rw [hu]
    have hids : ∀ a : Nat, (a ∈ ((db.users.filter fun u =>
        decide ((user_id, u.id) ∈ db.connections)).map fun conn => conn.id)
          ++ [user_id]) ↔
        (a = user_id ∨ ∃ u ∈ get_user_connections db user_id, u.id = a) := by
      intro a
      rw [hgc]
      simp only [List.mem_append, List.mem_map, List.mem_singleton]
      constructor
      · rintro (⟨x, hx, hxa⟩ | ha)
        · exact Or.inr ⟨x, hx, hxa⟩
        · exact Or.inl ha
      · rintro (ha | ⟨x, hx, hxa⟩)
        · exact Or.inr ha
        · exact Or.inl ⟨x, hx, hxa⟩
    have hfilterEq : (db.posts.filter fun p => decide (p.author_id ∈
        ((db.users.filter fun u =>
          decide ((user_id, u.id) ∈ db.connections)).map fun conn => conn.id)
          ++ [user_id])) =
        (db.posts.filter fun p => decide (p.author_id = user_id ∨
          ∃ u ∈ get_user_connections db user_id, u.id = p.author_id)) :=
      List.filter_congr fun p _ => decide_eq_decide.mpr (hids p.author_id)
    have hsort : List.Sorted postDesc ((db.posts.filter fun p =>
        decide (p.author_id ∈ ((db.users.filter fun u =>
          decide ((user_id, u.id) ∈ db.connections)).map fun conn => conn.id)
          ++ [user_id])).insertionSort postDesc) :=
      List.sorted_insertionSort postDesc _
    have hperm : List.Perm ((db.posts.filter fun p =>
        decide (p.author_id ∈ ((db.users.filter fun u =>
          decide ((user_id, u.id) ∈ db.connections)).map fun conn => conn.id)
          ++ [user_id])).insertionSort postDesc)
        (db.posts.filter fun p => decide (p.author_id ∈
          ((db.users.filter fun u =>
            decide ((user_id, u.id) ∈ db.connections)).map fun conn => conn.id)
            ++ [user_id])) :=
      List.perm_insertionSort postDesc _
    refine ⟨?_, ?_, ?_, ?_⟩
    · intro p hp
      rw [hfeed] at hp
      have h1 : p ∈ (db.posts.filter fun p => decide (p.author_id ∈
          ((db.users.filter fun u =>
            decide ((user_id, u.id) ∈ db.connections)).map fun conn => conn.id)
            ++ [user_id])).insertionSort postDesc :=
        List.drop_subset skip _ (List.take_subset limit _ hp)
      have h2 := List.mem_filter.mp (hperm.mem_iff.mp h1)
      exact ⟨h2.1, (hids p.author_id).mp (of_decide_eq_true h2.2)⟩
    · rw [hfeed]
      exact List.Pairwise.sublist
        ((List.take_sublist limit _).trans (List.drop_sublist skip _)) hsort
    · rw [hfeed, List.length_take]
      exact Nat.min_le_left _ _
    · intro userRow' h' hskip hlen p hp hau
      subst hskip
      have hpF : p ∈ db.posts.filter fun p => decide (p.author_id ∈
          ((db.users.filter fun u =>
            decide ((user_id, u.id) ∈ db.connections)).map fun conn => conn.id)
            ++ [user_id]) :=
        List.mem_filter.mpr ⟨hp, decide_eq_true ((hids p.author_id).mpr hau)⟩
      have hps := hperm.mem_iff.mpr hpF
      rw [hfeed, List.drop_zero,
        List.take_of_length_le (by rw [hperm.length_eq, hfilterEq]; exact hlen)]
      exact hps

/-- A third user, not connected to anyone. -/
def charlie : User :=
  ⟨3, "charlie@x", "charlie", "h3", "Charlie C", none, none, none, none, 0⟩

/-- A store where user 1 is connected to user 2 (single directed row), and
users 2, 1, 3 have one post each, created at times 10 < 20 < 30. -/
def dbFeed : DB :=
  ⟨[alice, bob, charlie], [(1, 2)], [],
   [⟨1, 2, "by bob", none, 10⟩, ⟨2, 1, "by alice", none, 20⟩,
    ⟨3, 3, "by charlie", none, 30⟩], [], [], 4, 1, 1, 1, 100⟩

/-- Witness for C6: user 1's feed in `dbFeed` is exactly their own post and
connected user 2's post, newest first; connected user 2's post is included
via the completeness conjunct; no post by unconnected user 3 appears. -/
theorem feed_spec_witness :
    get_feed_posts dbFeed 1 0 20 =
      [⟨2, 1, "by alice", none, 20⟩, ⟨1, 2, "by bob", none, 10⟩] ∧
    (⟨1, 2, "by bob", none, 10⟩ : Post) ∈ get_feed_posts dbFeed 1 0 20 ∧
    (∀ p ∈ get_feed_posts dbFeed 1 0 20, p.author_id ≠ 3) :=
  ⟨by decide,
   (feed_spec dbFeed 1 0 20).2.2.2 alice rfl rfl (by decide)
     ⟨1, 2, "by bob", none, 10⟩ (by decide) (Or.inr ⟨bob, by decide, rfl⟩),
   by decide⟩

end SocialApp
